import Mathlib

/-!
Shallow embedding of the live audio playback engine of
`src/dashboard/app/lib/audio-engine.ts` (class `AudioEngine`), together with
proofs of the specification claims about it.

Modelling conventions:
* JavaScript numbers (clock values, gains, durations) are modelled as `ℚ`.
* Web Audio objects are modelled by the data the engine reads or writes on
  them: an `AudioContext` by its `suspended` flag, an
  `AudioBufferSourceNode` by the buffer it was bound to and the offset it was
  started at, a `GainNode` / `StereoPannerNode` / `BiquadFilterNode` /
  `AnalyserNode` by their scalar parameter values.
* The real-time clock `context.currentTime` is passed to the time-dependent
  methods as an explicit `now : ℚ` argument.
* The asynchronous environment steps (whether a freshly created context
  starts suspended, whether `context.resume()` succeeds, the result of
  `fetch`/`decodeAudioData`) are passed as explicit arguments.
* Methods that can throw return `AudioEngineState × Except EngineError α`:
  the state the engine is left in, plus the normal or exceptional outcome.
  In the TypeScript source every `throw`/rejection happens before any state
  mutation of that method, which the definitions below mirror.
* `ctxCreated` is ghost instrumentation (not a field of the TypeScript
  state): it counts how many `AudioContext` objects this engine instance has
  created, so that claims about "at most one audio context per engine
  instance" can be stated.
-/

namespace MusicAi

/- Batteries marks the `Rat` field operations irreducible, which prevents
`decide` from evaluating the model on concrete states; restore reducibility
for this development. -/
attribute [local semireducible] Rat.add Rat.sub Rat.mul Rat.inv

/-- An `AudioContext`, modelled by the only piece of its state the engine
reads: whether it is suspended (`context.state === 'suspended'`). -/
structure AudioCtx where
  suspended : Bool
deriving DecidableEq

/-- A decoded `AudioBuffer`, modelled by its `duration`. -/
structure AudioBuffer where
  duration : ℚ
deriving DecidableEq

/-- An `AudioBufferSourceNode`, modelled by the buffer assigned to it and the
offset passed to `source.start(0, offset)`. -/
structure SourceNode where
  buffer : AudioBuffer
  startOffset : ℚ
deriving DecidableEq

/-- One entry of the `tracks` map: interface `TrackNode` of
`audio-engine.ts`.  The `gain`/`pan`/`filter`/`analyser` nodes are modelled
by the parameter values the engine sets on them. -/
structure TrackNode where
  source : Option SourceNode
  gainValue : ℚ
  panValue : ℚ
  filterType : String
  filterFrequency : ℚ
  filterQ : ℚ
  analyserFftSize : Nat
  analyserSmoothing : ℚ
  muted : Bool
  solo : Bool
deriving DecidableEq

/-- A voice descriptor as consumed by `AudioEngine.setupTracks`.  The
interface `SingingObject` lives in `lib/types.ts`; the fields modelled here
are exactly the ones `audio-engine.ts` reads: `id`, `enabled`, `volume` and
`vocalRange`. -/
structure SingingObject where
  id : String
  enabled : Bool
  volume : ℚ
  vocalRange : String
deriving DecidableEq

/-- Interface `AudioEngineState` of `audio-engine.ts`.  The `tracks`
`Map<string, TrackNode>` is modelled as an insertion-ordered association
list, matching the iteration order of a JavaScript `Map`.  `masterGain`
records whether the master gain node is present (non-null).  `ctxCreated` is
ghost instrumentation counting created audio contexts. -/
structure AudioEngineState where
  context : Option AudioCtx
  tracks : List (String × TrackNode)
  masterGain : Bool
  isPlaying : Bool
  startTime : ℚ
  pauseTime : ℚ
  duration : ℚ
  ctxCreated : Nat
deriving DecidableEq

attribute [ext] AudioEngineState

/-- The error kinds named by the specification (§7).  The TypeScript engine
itself only ever throws `new Error('Audio context not initialized')`
(`notInitialized`); decode failures surface as `decodeFailure` and a failed
`context.resume()` as `resumeFailure`.  `disposed` is listed because the
specification names a `Disposed` error; the source never produces it. -/
inductive EngineError where
  | notInitialized
  | decodeFailure
  | resumeFailure
  | disposed
deriving DecidableEq

deriving instance DecidableEq for Except

/-- JavaScript `Map.get`. -/
def mapGet (m : List (String × TrackNode)) (k : String) : Option TrackNode :=
  (m.find? (fun p => p.1 = k)).map (fun p => p.2)

/-- JavaScript `Map.set`: replaces in place when the key is present
(preserving insertion order), otherwise appends. -/
def mapSet (m : List (String × TrackNode)) (k : String) (v : TrackNode) :
    List (String × TrackNode) :=
  if m.any (fun p => p.1 = k) then
    m.map (fun p => if p.1 = k then (k, v) else p)
  else
    m ++ [(k, v)]

/-- JavaScript `x || 0` on a non-NaN number (used as
`this.state.pauseTime || 0` in `play`). -/
def jsOrZero (x : ℚ) : ℚ :=
  if x = 0 then 0 else x

/-- The state a freshly constructed `AudioEngine` starts in
(the constructor of `AudioEngine`). -/
def initState : AudioEngineState where
  context := none
  tracks := []
  masterGain := false
  isPlaying := false
  startTime := 0
  pauseTime := 0
  duration := 0
  ctxCreated := 0

/-- `AudioEngine.initialize`: lazily creates the audio context and the
master gain node.  `startSuspended` is the environment's choice of the
initial `state` of the fresh `AudioContext`. -/
def engineInit (s : AudioEngineState) (startSuspended : Bool) : AudioEngineState :=
  match s.context with
  | some _ => s
  | none =>
      { s with
        context := some { suspended := startSuspended }
        masterGain := true
        ctxCreated := s.ctxCreated + 1 }

/-- `AudioEngine.stop`: stops and releases every track's source (errors from
stopping an already-stopped source are swallowed by the `try`/`catch`, so the
method never throws) and clears `isPlaying`. -/
def stop (s : AudioEngineState) : AudioEngineState :=
  { s with
    tracks := s.tracks.map (fun p =>
      if (p.2.source).isSome then (p.1, { p.2 with source := none }) else p)
    isPlaying := false }

/-- `AudioEngine.clearTracks`. -/
def clearTracks (s : AudioEngineState) : AudioEngineState :=
  { stop s with tracks := [] }

/-- `AudioEngine.loadAudio`: re-runs `initialize` when there is no context,
then fetches and decodes.  The network/decode outcome is supplied by the
environment as `decoded`. -/
def loadAudio (s : AudioEngineState) (startSuspended : Bool)
    (decoded : Except Unit AudioBuffer) :
    AudioEngineState × Except EngineError AudioBuffer :=
  let s1 := match s.context with
    | none => engineInit s startSuspended
    | some _ => s
  match decoded with
  | .ok b => (s1, .ok b)
  | .error _ => (s1, .error .decodeFailure)

/-- Filter centre frequency chosen from the vocal range
(`filterFreqs[obj.vocalRange] || 800` in `setupTracks`). -/
def vocalRangeFreq (vr : String) : ℚ :=
  if vr = "bass" then 200
  else if vr = "tenor" then 400
  else if vr = "alto" then 800
  else if vr = "soprano" then 1600
  else 800

/-- The `TrackNode` built for one enabled voice inside
`AudioEngine.setupTracks`. -/
def mkTrackNode (obj : SingingObject) : TrackNode where
  source := none
  gainValue := obj.volume
  panValue := 0
  filterType := "bandpass"
  filterFrequency := vocalRangeFreq obj.vocalRange
  filterQ := 1
  analyserFftSize := 2048
  analyserSmoothing := 4/5
  muted := false
  solo := false

/-- `AudioEngine.setupTracks`: throws `notInitialized` when context or
master gain is missing; otherwise clears the existing tracks, records the
buffer duration, and builds one `TrackNode` per enabled voice via
`Map.set`. -/
def setupTracks (s : AudioEngineState) (buffer : AudioBuffer)
    (objects : List SingingObject) :
    AudioEngineState × Except EngineError Unit :=
  match s.context, s.masterGain with
  | some _, true =>
      let s1 := clearTracks s
      let s2 := { s1 with duration := buffer.duration }
      let tracks := objects.foldl
        (fun ts obj =>
          if obj.enabled then mapSet ts obj.id (mkTrackNode obj) else ts)
        s2.tracks
      ({ s2 with tracks := tracks }, .ok ())
  | _, _ => (s, .error .notInitialized)

/-- `AudioEngine.play`: throws `notInitialized` without a context or master
gain; awaits `context.resume()` when suspended (failure of that await, set by
the environment flag `resumeOk`, rejects `play` before any state mutation);
then stops current sources, starts one fresh source per track at the stored
pause offset, and records `startTime = now - offset`. -/
def play (s : AudioEngineState) (buffer : AudioBuffer) (now : ℚ)
    (resumeOk : Bool) : AudioEngineState × Except EngineError Unit :=
  match s.context, s.masterGain with
  | some ctx, true =>
      if ctx.suspended && !resumeOk then (s, .error .resumeFailure)
      else
        let s1 := { s with context := some { ctx with suspended := false } }
        let s2 := stop s1
        let offset := jsOrZero s2.pauseTime
        let newTracks := s2.tracks.map (fun p =>
          (p.1, { p.2 with source := some { buffer := buffer, startOffset := offset } }))
        ({ s2 with
            tracks := newTracks
            isPlaying := true
            startTime := now - offset }, .ok ())
  | _, _ => (s, .error .notInitialized)

/-- `AudioEngine.pause`: no-op without a context or while not playing;
otherwise records `pauseTime = now - startTime` and stops. -/
def pause (s : AudioEngineState) (now : ℚ) : AudioEngineState :=
  match s.context with
  | none => s
  | some _ =>
      if s.isPlaying then stop { s with pauseTime := now - s.startTime } else s

/-- `AudioEngine.resume`: replays only when the stored pause offset is
strictly positive. -/
def resume (s : AudioEngineState) (buffer : AudioBuffer) (now : ℚ)
    (resumeOk : Bool) : AudioEngineState × Except EngineError Unit :=
  if s.pauseTime > 0 then play s buffer now resumeOk else (s, .ok ())

/-- `AudioEngine.seek`: remembers whether playback was running, stops,
clamps the requested time to `[0, duration]` into `pauseTime`, and replays
when it had been running. -/
def seek (s : AudioEngineState) (buffer : AudioBuffer) (time now : ℚ)
    (resumeOk : Bool) : AudioEngineState × Except EngineError Unit :=
  let wasPlaying := s.isPlaying
  let s1 := stop s
  let s2 := { s1 with pauseTime := max 0 (min time s1.duration) }
  if wasPlaying then play s2 buffer now resumeOk else (s2, .ok ())

/-- `AudioEngine.getCurrentTime`. -/
def getCurrentTime (s : AudioEngineState) (now : ℚ) : ℚ :=
  match s.context with
  | none => 0
  | some _ =>
      if s.isPlaying then min (now - s.startTime) s.duration else s.pauseTime

/-- `AudioEngine.setTrackVolume`. -/
def setTrackVolume (s : AudioEngineState) (objectId : String) (volume : ℚ) :
    AudioEngineState :=
  match mapGet s.tracks objectId with
  | none => s
  | some _ =>
      { s with tracks := s.tracks.map (fun p =>
          if p.1 = objectId then (p.1, { p.2 with gainValue := volume }) else p) }

/-- `AudioEngine.setTrackPan` (clamps to `[-1, 1]`). -/
def setTrackPan (s : AudioEngineState) (objectId : String) (panVal : ℚ) :
    AudioEngineState :=
  match mapGet s.tracks objectId with
  | none => s
  | some _ =>
      { s with tracks := s.tracks.map (fun p =>
          if p.1 = objectId then
            (p.1, { p.2 with panValue := max (-1) (min 1 panVal) })
          else p) }

/-- `AudioEngine.toggleMute`. -/
def toggleMute (s : AudioEngineState) (objectId : String) : AudioEngineState :=
  match mapGet s.tracks objectId with
  | none => s
  | some _ =>
      { s with tracks := s.tracks.map (fun p =>
          if p.1 = objectId then
            (p.1, { p.2 with
              muted := !p.2.muted
              gainValue := if !p.2.muted then 0 else 1 })
          else p) }

/-- Whether any track of the map is soloed
(`Array.from(this.state.tracks.values()).some(t => t.solo)`). -/
def anySolo (m : List (String × TrackNode)) : Bool :=
  m.any (fun p => p.2.solo)

/-- The gain written to one track by the final loop of
`AudioEngine.toggleSolo`. -/
def soloGain (hasSolo : Bool) (t : TrackNode) : ℚ :=
  if hasSolo then (if t.solo then 1 else 0) else (if t.muted then 0 else 1)

/-- `AudioEngine.toggleSolo`: returns unchanged when the id is absent;
otherwise flips that track's solo flag and reassigns every track's gain from
the solo/mute flags. -/
def toggleSolo (s : AudioEngineState) (objectId : String) : AudioEngineState :=
  match mapGet s.tracks objectId with
  | none => s
  | some _ =>
      let tracks1 := s.tracks.map (fun p =>
        if p.1 = objectId then (p.1, { p.2 with solo := !p.2.solo }) else p)
      let hasSolo := anySolo tracks1
      { s with tracks := tracks1.map (fun p =>
          (p.1, { p.2 with gainValue := soloGain hasSolo p.2 })) }

/-- `AudioEngine.dispose`: stop, clear the track map, close and drop the
audio context, release the master node. -/
def dispose (s : AudioEngineState) : AudioEngineState :=
  let s1 := clearTracks (stop s)
  { s1 with context := none, masterGain := false }

/-- One call of the engine's public control surface, with the environment's
choices (clock readings, suspension, decode results) recorded in the
operation. -/
inductive EngineOp where
  | init (startSuspended : Bool)
  | load (startSuspended : Bool) (decoded : Except Unit AudioBuffer)
  | setup (buffer : AudioBuffer) (objects : List SingingObject)
  | doPlay (buffer : AudioBuffer) (now : ℚ) (resumeOk : Bool)
  | doPause (now : ℚ)
  | doResume (buffer : AudioBuffer) (now : ℚ) (resumeOk : Bool)
  | doStop
  | doSeek (buffer : AudioBuffer) (time now : ℚ) (resumeOk : Bool)
  | doDispose
  | volumeCtl (objectId : String) (v : ℚ)
  | panCtl (objectId : String) (v : ℚ)
  | muteCtl (objectId : String)
  | soloCtl (objectId : String)

/-- The engine state after one call; for fallible calls this is the state
the engine is left in whether or not the call threw. -/
def applyOp (s : AudioEngineState) : EngineOp → AudioEngineState
  | .init b => engineInit s b
  | .load b d => (loadAudio s b d).1
  | .setup buf objs => (setupTracks s buf objs).1
  | .doPlay buf now r => (play s buf now r).1
  | .doPause now => pause s now
  | .doResume buf now r => (resume s buf now r).1
  | .doStop => stop s
  | .doSeek buf t now r => (seek s buf t now r).1
  | .doDispose => dispose s
  | .volumeCtl objectId v => setTrackVolume s objectId v
  | .panCtl objectId v => setTrackPan s objectId v
  | .muteCtl objectId => toggleMute s objectId
  | .soloCtl objectId => toggleSolo s objectId

/-- Engine states reachable from a fresh `AudioEngine` by any sequence of
calls. -/
inductive Reachable : AudioEngineState → Prop where
  | init : Reachable initState
  | step {s : AudioEngineState} {op : EngineOp} :
      Reachable s → Reachable (applyOp s op)

/-- The state a successful `play(buffer)` call leaves the engine in. -/
def playedState (s : AudioEngineState) (b : AudioBuffer) (now : ℚ) :
    AudioEngineState :=
  { s with
    context := some { suspended := false }
    tracks := s.tracks.map (fun p =>
      (p.1, { p.2 with source := some { buffer := b, startOffset := s.pauseTime } }))
    isPlaying := true
    startTime := now - s.pauseTime }

/-- Whether a track map entry has released its source handle. -/
def trackSourceNone (p : String × TrackNode) : Bool := (p.2.source).isNone

/-- Whether a track map entry holds a live source handle. -/
def trackSourceLive (p : String × TrackNode) : Bool := (p.2.source).isSome

/-! ### Concrete states used by witnesses and counterexamples -/

/-- A single enabled alto voice at half volume. -/
def demoVoice : SingingObject where
  id := "a"
  enabled := true
  volume := 1/2
  vocalRange := "alto"

/-- A ten-second decoded buffer. -/
def demoBuffer : AudioBuffer where
  duration := 10

/-- Two enabled voices that share one id (used to probe `Map.set`
overwriting in `setupTracks`). -/
def dupVoices : List SingingObject :=
  [{ id := "a", enabled := true, volume := 1/2, vocalRange := "bass" },
   { id := "a", enabled := true, volume := 3/4, vocalRange := "tenor" }]

/-- Whether a track map entry's gain agrees with the solo rule
"soloed tracks at full gain 1, others silenced". -/
def soloGainOk (p : String × TrackNode) : Bool :=
  decide (p.2.gainValue = (if p.2.solo = true then (1 : ℚ) else 0))

/-- Fresh engine after `initialize()` (context created running). -/
def st1 : AudioEngineState := applyOp initState (.init false)

/-- After `setupTracks(demoBuffer, [demoVoice])`. -/
def st2 : AudioEngineState := applyOp st1 (.setup demoBuffer [demoVoice])

/-- After `play(demoBuffer)` at clock 0. -/
def st3 : AudioEngineState := applyOp st2 (.doPlay demoBuffer 0 true)

/-- After `pause()` at clock 15 — five seconds past the buffer's end. -/
def st4 : AudioEngineState := applyOp st3 (.doPause 15)

lemma st1_reachable : Reachable st1 := by
  unfold st1
  exact Reachable.step Reachable.init

lemma st2_reachable : Reachable st2 := by
  unfold st2
  exact Reachable.step st1_reachable

lemma st3_reachable : Reachable st3 := by
  unfold st3
  exact Reachable.step st2_reachable

lemma st4_reachable : Reachable st4 := by
  unfold st4
  exact Reachable.step st3_reachable

/-! ### Basic lemmas about the operations -/

lemma jsOrZero_eq (x : ℚ) : jsOrZero x = x := by
  unfold jsOrZero
  split
  · exact Eq.symm (by assumption)
  · rfl

lemma trackNode_eta (t : TrackNode) (h : t.source = none) :
    { t with source := none } = t := by
  cases t
  simp_all

lemma stop_tracks (s : AudioEngineState) :
    (stop s).tracks = s.tracks.map (fun p => (p.1, { p.2 with source := none })) := by
  unfold stop
  refine List.map_congr_left ?_
  intro p _
  by_cases h : (p.2.source).isSome
  · simp [h]
  · rw [Option.not_isSome_iff_eq_none] at h
    simp [h, trackNode_eta p.2 h]

lemma stop_eq_of_idle (s : AudioEngineState) (h1 : s.isPlaying = false)
    (h2 : ∀ p ∈ s.tracks, p.2.source = none) : stop s = s := by
  have ht : (stop s).tracks = s.tracks := by
    rw [stop_tracks]
    have step1 : s.tracks.map (fun p => (p.1, { p.2 with source := none }))
        = s.tracks.map id := by
      refine List.map_congr_left ?_
      intro p hp
      rw [trackNode_eta p.2 (h2 p hp)]
      rfl
    rw [step1, List.map_id]
  cases s
  simp_all [stop]

lemma mapSet_mem {m : List (String × TrackNode)} {k : String} {v : TrackNode}
    {p : String × TrackNode} (hp : p ∈ mapSet m k v) : p ∈ m ∨ p = (k, v) := by
  unfold mapSet at hp
  split at hp
  · obtain ⟨x, hx, rfl⟩ := List.mem_map.mp hp
    by_cases h : x.1 = k
    · simp [h]
    · simp only [h, if_false]
      exact .inl hx
  · rcases List.mem_append.mp hp with h | h
    · exact .inl h
    · exact .inr (List.mem_singleton.mp h)

/-! ### The source-handle invariant -/

/-- Every track's source handle is released. -/
def AllSourcesNone (s : AudioEngineState) : Prop :=
  ∀ p ∈ s.tracks, p.2.source = none

/-- Every track holds a live source handle. -/
def AllSourcesLive (s : AudioEngineState) : Prop :=
  ∀ p ∈ s.tracks, (p.2.source).isSome = true

/-- The play-state/source-handle invariant of the specification (§3). -/
def SourcesInv (s : AudioEngineState) : Prop :=
  (s.isPlaying = true → AllSourcesLive s) ∧ (s.isPlaying = false → AllSourcesNone s)

lemma sourcesInv_of_idle {s : AudioEngineState} (h1 : s.isPlaying = false)
    (h2 : AllSourcesNone s) : SourcesInv s := by
  refine ⟨fun hp => ?_, fun _ => h2⟩
  rw [h1] at hp
  cases hp

lemma allSourcesNone_stop (s : AudioEngineState) : AllSourcesNone (stop s) := by
  intro p hp
  rw [stop_tracks] at hp
  obtain ⟨q, _, rfl⟩ := List.mem_map.mp hp
  rfl

lemma sourcesInv_stop (s : AudioEngineState) : SourcesInv (stop s) :=
  sourcesInv_of_idle rfl (allSourcesNone_stop s)

lemma sourcesInv_congr {s s' : AudioEngineState} (hp : s'.isPlaying = s.isPlaying)
    (ht : s'.tracks = s.tracks) (h : SourcesInv s) : SourcesInv s' := by
  unfold SourcesInv AllSourcesLive AllSourcesNone
  rw [hp, ht]
  exact h

lemma sourcesInv_map_update {s : AudioEngineState}
    (f : String × TrackNode → String × TrackNode)
    (hf : ∀ p, ((f p).2).source = (p.2).source) (h : SourcesInv s) :
    SourcesInv { s with tracks := s.tracks.map f } := by
  constructor
  · intro hp p hmem
    obtain ⟨q, hq, rfl⟩ := List.mem_map.mp hmem
    rw [hf]
    exact h.1 hp q hq
  · intro hp p hmem
    obtain ⟨q, hq, rfl⟩ := List.mem_map.mp hmem
    rw [hf]
    exact h.2 hp q hq

/-! ### Play lemmas -/

lemma play_spec (s : AudioEngineState) (b : AudioBuffer) (now : ℚ) (r : Bool) :
    ((s.context = none ∨ s.masterGain = false)
      ∧ play s b now r = (s, .error .notInitialized))
    ∨ (∃ ctx, s.context = some ctx ∧ s.masterGain = true
        ∧ ctx.suspended = true ∧ r = false
        ∧ play s b now r = (s, .error .resumeFailure))
    ∨ play s b now r = (playedState s b now, .ok ()) := by
  unfold play
  split
  case h_1 ctx hc hm =>
    split
    case isTrue hcond =>
      simp only [Bool.and_eq_true, Bool.not_eq_true'] at hcond
      exact .inr (.inl ⟨ctx, hc, hm, hcond.1, hcond.2, rfl⟩)
    case isFalse hcond =>
      refine .inr (.inr (Prod.ext ?_ rfl))
      refine AudioEngineState.ext ?_ ?_ ?_ ?_ ?_ ?_ ?_ ?_
      · rfl
      · show ((stop _).tracks).map _ = _
        rw [stop_tracks, List.map_map]
        refine List.map_congr_left ?_
        intro p _
        simp only [Function.comp, jsOrZero_eq]
        rfl
      · rfl
      · rfl
      · show now - jsOrZero _ = now - s.pauseTime
        rw [jsOrZero_eq]
        rfl
      · rfl
      · rfl
      · rfl
  case h_2 o m hne =>
    refine .inl ⟨?_, rfl⟩
    rcases hctx : s.context with _ | ctx
    · exact .inl rfl
    · rcases hmg : s.masterGain
      · exact .inr rfl
      · exact (hne ctx hctx hmg).elim

lemma play_error_state {s : AudioEngineState} {b : AudioBuffer} {now : ℚ}
    {r : Bool} {e : EngineError} (h : (play s b now r).2 = .error e) :
    (play s b now r).1 = s := by
  rcases play_spec s b now r with ⟨-, he⟩ | ⟨ctx, -, -, -, -, he⟩ | he
  · rw [he]
  · rw [he]
  · rw [he] at h
    cases h

lemma play_ok_state {s : AudioEngineState} {b : AudioBuffer} {now : ℚ}
    {r : Bool} (h : (play s b now r).2 = .ok ()) :
    (play s b now r).1 = playedState s b now := by
  rcases play_spec s b now r with ⟨-, he⟩ | ⟨ctx, -, -, -, -, he⟩ | he
  · rw [he] at h
    cases h
  · rw [he] at h
    cases h
  · rw [he]

lemma play_ok_of {s : AudioEngineState} (b : AudioBuffer) (now : ℚ) (r : Bool)
    {ctx : AudioCtx} (hc : s.context = some ctx) (hm : s.masterGain = true)
    (hr : ctx.suspended = false ∨ r = true) :
    play s b now r = (playedState s b now, .ok ()) := by
  rcases play_spec s b now r with ⟨hbad, -⟩ | ⟨ctx2, hc2, -, hsusp, hrf, -⟩ | he
  · rcases hbad with hbad | hbad
    · rw [hc] at hbad
      cases hbad
    · rw [hm] at hbad
      cases hbad
  · rw [hc] at hc2
    cases hc2
    rcases hr with h | h
    · rw [h] at hsusp
      cases hsusp
    · rw [h] at hrf
      cases hrf
  · exact he

lemma play_sourcesInv (s : AudioEngineState) (b : AudioBuffer) (now : ℚ)
    (r : Bool) (h : SourcesInv s) : SourcesInv (play s b now r).1 := by
  rcases h2 : (play s b now r).2 with e | u
  · rw [play_error_state h2]
    exact h
  · rw [play_ok_state h2]
    refine ⟨fun _ => ?_, fun hf => ?_⟩
    · intro p hmem
      obtain ⟨q, _, rfl⟩ := List.mem_map.mp hmem
      rfl
    · cases hf

/-! ### The invariant holds in every reachable state -/

lemma foldl_sources_none (objs : List SingingObject)
    (acc : List (String × TrackNode)) (hacc : ∀ p ∈ acc, p.2.source = none) :
    ∀ p ∈ objs.foldl
        (fun ts obj => if obj.enabled then mapSet ts obj.id (mkTrackNode obj) else ts)
        acc,
      p.2.source = none := by
  induction objs generalizing acc with
  | nil => simpa using hacc
  | cons o rest ih =>
      simp only [List.foldl_cons]
      by_cases he : o.enabled = true
      · rw [if_pos he]
        refine ih _ ?_
        intro q hq
        rcases mapSet_mem hq with h | h
        · exact hacc q h
        · rw [h]
          rfl
      · rw [if_neg he]
        exact ih _ hacc

lemma engineInit_sourcesInv (s : AudioEngineState) (b : Bool)
    (h : SourcesInv s) : SourcesInv (engineInit s b) := by
  unfold engineInit
  split
  · exact h
  · exact sourcesInv_congr rfl rfl h

lemma loadAudio_sourcesInv (s : AudioEngineState) (b : Bool)
    (d : Except Unit AudioBuffer) (h : SourcesInv s) :
    SourcesInv (loadAudio s b d).1 := by
  unfold loadAudio
  rcases d with d | d
  · split
    · exact engineInit_sourcesInv _ _ h
    · exact h
  · split
    · exact engineInit_sourcesInv _ _ h
    · exact h

lemma setupTracks_sourcesInv (s : AudioEngineState) (b : AudioBuffer)
    (objs : List SingingObject) (h : SourcesInv s) :
    SourcesInv (setupTracks s b objs).1 := by
  unfold setupTracks
  split
  · refine sourcesInv_of_idle rfl ?_
    intro p hp
    refine foldl_sources_none objs _ ?_ p hp
    intro q hq
    cases hq
  · exact h

lemma pause_sourcesInv (s : AudioEngineState) (now : ℚ) (h : SourcesInv s) :
    SourcesInv (pause s now) := by
  unfold pause
  split
  · exact h
  · split
    · exact sourcesInv_stop _
    · exact h

lemma resume_sourcesInv (s : AudioEngineState) (b : AudioBuffer) (now : ℚ)
    (r : Bool) (h : SourcesInv s) : SourcesInv (resume s b now r).1 := by
  unfold resume
  split
  · exact play_sourcesInv _ _ _ _ h
  · exact h

lemma seek_not_playing (s : AudioEngineState) (b : AudioBuffer) (t now : ℚ)
    (r : Bool) (hw : s.isPlaying = false) :
    seek s b t now r
      = ({ stop s with pauseTime := max 0 (min t s.duration) }, .ok ()) := by
  unfold seek
  rw [hw]
  rfl

lemma seek_playing (s : AudioEngineState) (b : AudioBuffer) (t now : ℚ)
    (r : Bool) (hw : s.isPlaying = true) :
    seek s b t now r
      = play { stop s with pauseTime := max 0 (min t s.duration) } b now r := by
  unfold seek
  rw [hw]
  rfl

lemma seek_sourcesInv (s : AudioEngineState) (b : AudioBuffer) (t now : ℚ)
    (r : Bool) (_h : SourcesInv s) : SourcesInv (seek s b t now r).1 := by
  rcases hw : s.isPlaying
  · rw [seek_not_playing s b t now r hw]
    exact sourcesInv_of_idle rfl (fun p hp => allSourcesNone_stop s p hp)
  · rw [seek_playing s b t now r hw]
    exact play_sourcesInv _ _ _ _
      (sourcesInv_of_idle rfl (fun p hp => allSourcesNone_stop s p hp))

lemma dispose_sourcesInv (s : AudioEngineState) : SourcesInv (dispose s) := by
  refine sourcesInv_of_idle rfl ?_
  intro p hp
  cases hp

lemma setTrackVolume_sourcesInv (s : AudioEngineState) (objectId : String)
    (v : ℚ) (h : SourcesInv s) : SourcesInv (setTrackVolume s objectId v) := by
  unfold setTrackVolume
  split
  · exact h
  · refine sourcesInv_map_update _ ?_ h
    intro p
    by_cases hp : p.1 = objectId <;> simp [hp]

lemma setTrackPan_sourcesInv (s : AudioEngineState) (objectId : String)
    (v : ℚ) (h : SourcesInv s) : SourcesInv (setTrackPan s objectId v) := by
  unfold setTrackPan
  split
  · exact h
  · refine sourcesInv_map_update _ ?_ h
    intro p
    by_cases hp : p.1 = objectId <;> simp [hp]

lemma toggleMute_sourcesInv (s : AudioEngineState) (objectId : String)
    (h : SourcesInv s) : SourcesInv (toggleMute s objectId) := by
  unfold toggleMute
  split
  · exact h
  · refine sourcesInv_map_update _ ?_ h
    intro p
    by_cases hp : p.1 = objectId <;> simp [hp]

lemma toggleSolo_sourcesInv (s : AudioEngineState) (objectId : String)
    (h : SourcesInv s) : SourcesInv (toggleSolo s objectId) := by
  unfold toggleSolo
  split
  · exact h
  · simp only [List.map_map]
    refine sourcesInv_map_update _ ?_ h
    intro p
    by_cases hp : p.1 = objectId <;> simp [Function.comp, hp]

lemma reachable_sourcesInv {s : AudioEngineState} (h : Reachable s) :
    SourcesInv s := by
  induction h with
  | init =>
      refine sourcesInv_of_idle rfl ?_
      intro p hp
      cases hp
  | step hs ih =>
      rename_i s0 op
      cases op with
      | init b => exact engineInit_sourcesInv _ _ ih
      | load b d => exact loadAudio_sourcesInv _ _ _ ih
      | setup buf objs => exact setupTracks_sourcesInv _ _ _ ih
      | doPlay buf now r => exact play_sourcesInv _ _ _ _ ih
      | doPause now => exact pause_sourcesInv _ _ ih
      | doResume buf now r => exact resume_sourcesInv _ _ _ _ ih
      | doStop => exact sourcesInv_stop _
      | doSeek buf t now r => exact seek_sourcesInv _ _ _ _ _ ih
      | doDispose => exact dispose_sourcesInv _
      | volumeCtl objectId v => exact setTrackVolume_sourcesInv _ _ _ ih
      | panCtl objectId v => exact setTrackPan_sourcesInv _ _ _ ih
      | muteCtl objectId => exact toggleMute_sourcesInv _ _ ih
      | soloCtl objectId => exact toggleSolo_sourcesInv _ _ ih

/-! ### Claim theorems -/

/-- C2: in every engine state reachable by any sequence of engine calls,
`isPlaying = true` implies every non-muted `TrackNode` has a non-null source
handle, and `isPlaying = false` implies every `TrackNode`'s source handle is
null.  (The code in fact starts a source for every track, muted or not, so
the non-muted restriction is satisfied a fortiori.) -/
theorem c2_sources_invariant (s : AudioEngineState) (h : Reachable s) :
    (s.isPlaying = true →
      ∀ p ∈ s.tracks, p.2.muted = false → (p.2.source).isSome = true)
    ∧ (s.isPlaying = false → ∀ p ∈ s.tracks, p.2.source = none) := by
  have hinv := reachable_sourcesInv h
  exact ⟨fun hp p hmem _ => hinv.1 hp p hmem, hinv.2⟩

/-- Witness for C2: the concrete reachable paused state `st4` has every
source handle released. -/
theorem c2_sources_invariant_witness :
    st4.tracks.all trackSourceNone = true := by
  have h := (c2_sources_invariant st4 st4_reachable).2 (by decide)
  rw [List.all_eq_true]
  intro p hp
  unfold trackSourceNone
  rw [h p hp]
  rfl

/-- C6: `stop()` never raises (it is a total function of the state: the
`try`/`catch` swallows "already stopped" errors), forces the Idle play state
— `isPlaying = false` with every source handle `none` — and leaves every
other field unchanged: the track map keeps its keys, order and all
gain/pan/filter/mute/solo data, and `pauseTime` in particular keeps its
value.  Stopping an already-stopped engine is a no-op. -/
theorem c6_stop_frame (s : AudioEngineState) :
    (stop s).isPlaying = false
    ∧ (stop s).tracks = s.tracks.map (fun p => (p.1, { p.2 with source := none }))
    ∧ (stop s).pauseTime = s.pauseTime
    ∧ (stop s).startTime = s.startTime
    ∧ (stop s).duration = s.duration
    ∧ (stop s).context = s.context
    ∧ (stop s).masterGain = s.masterGain
    ∧ (stop s).ctxCreated = s.ctxCreated
    ∧ stop (stop s) = stop s := by
  refine ⟨rfl, stop_tracks s, rfl, rfl, rfl, rfl, rfl, rfl, ?_⟩
  exact stop_eq_of_idle (stop s) rfl (allSourcesNone_stop s)

/-- C5: a `play(buffer)` call is all-or-nothing: on success every track in
the map holds a started source, and on any failure the engine is left in
exactly its prior state (every rejection of `play` happens before any source
is started). -/
theorem c5_play_all_or_nothing (s : AudioEngineState) (b : AudioBuffer)
    (now : ℚ) (r : Bool) :
    ((play s b now r).2 = .ok () →
      (play s b now r).1.isPlaying = true
      ∧ ∀ p ∈ (play s b now r).1.tracks, (p.2.source).isSome = true)
    ∧ (∀ e, (play s b now r).2 = .error e → (play s b now r).1 = s) := by
  constructor
  · intro h
    rw [play_ok_state h]
    refine ⟨rfl, ?_⟩
    intro p hp
    obtain ⟨q, _, rfl⟩ := List.mem_map.mp hp
    rfl
  · intro e h
    exact play_error_state h

/-- Witness for C5: a successful `play` on the one-track state `st2` marks
the engine playing, and the failing `play` on a fresh engine leaves the
state untouched. -/
theorem c5_play_all_or_nothing_witness :
    (play st2 demoBuffer 0 true).1.isPlaying = true
    ∧ (play initState demoBuffer 0 true).1 = initState := by
  constructor
  · exact ((c5_play_all_or_nothing st2 demoBuffer 0 true).1 (by rfl)).1
  · exact (c5_play_all_or_nothing initState demoBuffer 0 true).2
      EngineError.notInitialized (by rfl)

/-- C10: `resume(buffer)` starts playback only when the stored pause offset
is strictly positive: with `pauseTime = 0` (after pausing at position 0, or
before any playback) it is a complete no-op — state unchanged, no error, and
the engine stays not playing. -/
theorem c10_resume_only_when_positive (s : AudioEngineState) (b : AudioBuffer)
    (now : ℚ) (r : Bool) :
    (s.pauseTime = 0 → resume s b now r = (s, .ok ()))
    ∧ (s.pauseTime = 0 → (resume s b now r).1.isPlaying = s.isPlaying)
    ∧ (0 < s.pauseTime → resume s b now r = play s b now r) := by
  refine ⟨fun h0 => ?_, fun h0 => ?_, fun hpos => ?_⟩
  · unfold resume
    rw [h0, if_neg (lt_irrefl (0 : ℚ))]
  · unfold resume
    rw [h0, if_neg (lt_irrefl (0 : ℚ))]
  · unfold resume
    rw [if_pos hpos]

/-- Witness for C10: on the fresh engine `st1` (pause offset 0) `resume` is
a no-op; on the paused state `st4` (pause offset 15) `resume` replays. -/
theorem c10_resume_only_when_positive_witness :
    resume st1 demoBuffer 3 true = (st1, .ok ())
    ∧ resume st4 demoBuffer 20 true = play st4 demoBuffer 20 true := by
  constructor
  · exact (c10_resume_only_when_positive st1 demoBuffer 3 true).1 (by decide)
  · exact (c10_resume_only_when_positive st4 demoBuffer 20 true).2.2 (by decide)

/-- C9 counterexample: for one engine instance the sequence
`initialize(); dispose(); initialize()` refutes "calling `initialize` again
after the first call has completed is a no-op (at most one audio context per
engine instance)": the third call changes the state and the instance has
created two audio contexts. -/
theorem c9_counterexample :
    engineInit (dispose (engineInit initState false)) false
        ≠ dispose (engineInit initState false)
    ∧ (engineInit (dispose (engineInit initState false)) false).ctxCreated = 2 := by
  constructor
  · intro h
    have := congrArg AudioEngineState.context h
    simp [engineInit, dispose, clearTracks, stop, initState] at this
  · decide

/-- C9 (amended): `initialize` lazily creates the context and master node on
first call, and is idempotent while the context remains open: any further
call with the context still present is a no-op.  After `dispose` the context
is gone, and a subsequent `initialize` creates a fresh context — so at most
one context is open at a time, but an instance may create several over its
lifetime. -/
theorem c9_engine_init (s : AudioEngineState) (susp susp2 : Bool) :
    (s.context.isSome = true → engineInit s susp = s)
    ∧ (s.context = none →
        (engineInit s susp).context = some { suspended := susp }
        ∧ (engineInit s susp).masterGain = true
        ∧ (engineInit s susp).ctxCreated = s.ctxCreated + 1
        ∧ engineInit (engineInit s susp) susp2 = engineInit s susp) := by
  constructor
  · intro h
    unfold engineInit
    split
    · rfl
    · rename_i hn
      rw [hn] at h
      cases h
  · intro h
    unfold engineInit
    rw [h]
    exact ⟨rfl, rfl, rfl, rfl⟩

/-- Witness for C9 (amended): a second `initialize` right after the first is
a no-op, and on a fresh engine `initialize` installs the context. -/
theorem c9_engine_init_witness :
    engineInit st1 true = st1
    ∧ (engineInit initState false).context = some { suspended := false } := by
  constructor
  · exact (c9_engine_init st1 true false).1 (by decide)
  · exact ((c9_engine_init initState false true).2 (by decide)).1

/-- C1 counterexample: after `dispose` on the reachable state `st2`, the
subsequent operations do not fail with a `Disposed` error: `pause` returns
with no error and unchanged state, `play` fails with `notInitialized`
instead, and `loadAudio` silently re-creates an audio context. -/
theorem c1_counterexample :
    pause (dispose st2) 5 = dispose st2
    ∧ (play (dispose st2) demoBuffer 6 true).2 = .error .notInitialized
    ∧ (play (dispose st2) demoBuffer 6 true).2
        ≠ (.error .disposed : Except EngineError Unit)
    ∧ ((loadAudio (dispose st2) false (.ok demoBuffer)).1.context).isSome = true := by
  refine ⟨by decide, rfl, ?_, rfl⟩
  intro h
  rw [(rfl : (play (dispose st2) demoBuffer 6 true).2 = .error .notInitialized)] at h
  injection h with h2
  cases h2

/-- C1 (amended): after `dispose()` completes the engine behaves like an
uninitialized engine rather than failing everything with `Disposed`:
`play` and `setupTracks` fail with `NotInitialized`; `pause`, `stop` and the
per-track controls return without error and leave the state unchanged;
`getCurrentTime` returns 0; `seek` stores the clamped offset without error;
`resume` never produces a `Disposed` error and leaves the state unchanged;
`loadAudio` re-initializes the engine, creating a fresh context. -/
theorem c1_after_dispose (s : AudioEngineState) (b : AudioBuffer)
    (objs : List SingingObject) (t now v : ℚ) (r susp : Bool)
    (dec : Except Unit AudioBuffer) (objectId : String) :
    play (dispose s) b now r = (dispose s, .error .notInitialized)
    ∧ setupTracks (dispose s) b objs = (dispose s, .error .notInitialized)
    ∧ pause (dispose s) now = dispose s
    ∧ stop (dispose s) = dispose s
    ∧ getCurrentTime (dispose s) now = 0
    ∧ seek (dispose s) b t now r
        = ({ dispose s with pauseTime := max 0 (min t s.duration) }, .ok ())
    ∧ (resume (dispose s) b now r).1 = dispose s
    ∧ (resume (dispose s) b now r).2 ≠ (.error .disposed : Except EngineError Unit)
    ∧ ((loadAudio (dispose s) susp dec).1.context).isSome = true
    ∧ setTrackVolume (dispose s) objectId v = dispose s
    ∧ setTrackPan (dispose s) objectId v = dispose s
    ∧ toggleMute (dispose s) objectId = dispose s
    ∧ toggleSolo (dispose s) objectId = dispose s := by
  refine ⟨rfl, rfl, rfl, rfl, rfl, rfl, ?_, ?_, ?_, rfl, rfl, rfl, rfl⟩
  · unfold resume
    split
    · rfl
    · rfl
  · unfold resume
    split
    · intro h
      injection h with h2
      cases h2
    · intro h
      cases h
  · rcases dec with d | d <;> rfl

/-- Witness for C1 (amended) on the concrete disposed engine `dispose st2`:
`pause` leaves it unchanged without error, `getCurrentTime` returns 0, and
`resume` does not produce a `Disposed` error. -/
theorem c1_after_dispose_witness :
    pause (dispose st2) 7 = dispose st2
    ∧ getCurrentTime (dispose st2) 7 = 0
    ∧ (resume (dispose st2) demoBuffer 7 true).2
        ≠ (.error .disposed : Except EngineError Unit) := by
  have h := c1_after_dispose st2 demoBuffer [] 3 7 1 true false
    (.ok demoBuffer) "a"
  exact ⟨h.2.2.1, h.2.2.2.2.1, h.2.2.2.2.2.2.2.1⟩

/-- C3 counterexample: in the reachable state `st4` — `play` at clock 0 on a
10-second buffer, then `pause` at clock 15 — the engine is not playing and
`getCurrentTime` returns the stored `pauseTime` of 15, which exceeds the
buffer's duration of 10. -/
theorem c3_counterexample :
    Reachable st4
    ∧ st4.isPlaying = false
    ∧ st4.duration = demoBuffer.duration
    ∧ getCurrentTime st4 16 = 15
    ∧ ¬ getCurrentTime st4 16 ≤ st4.duration :=
  ⟨st4_reachable, by decide, by decide, by decide, by decide⟩

/-- C3 (amended): with a context present, `getCurrentTime` returns
`min(now - startTime, duration)` while playing — hence never exceeds the
duration while playing — and returns the stored `pauseTime` when not
playing; that stored value can exceed the duration, because `pause` records
the raw elapsed time unclamped. -/
theorem c3_current_time (s : AudioEngineState) (now : ℚ) :
    (s.isPlaying = true → s.context.isSome = true →
      getCurrentTime s now = min (now - s.startTime) s.duration
      ∧ getCurrentTime s now ≤ s.duration)
    ∧ (s.isPlaying = false → s.context.isSome = true →
      getCurrentTime s now = s.pauseTime) := by
  constructor
  · intro hp hc
    rcases hctx : s.context with _ | c
    · rw [hctx] at hc
      cases hc
    · unfold getCurrentTime
      rw [hctx, hp]
      exact ⟨if_pos rfl, by rw [if_pos rfl]; exact min_le_right _ _⟩
  · intro hp hc
    rcases hctx : s.context with _ | c
    · rw [hctx] at hc
      cases hc
    · unfold getCurrentTime
      rw [hctx, hp]
      rfl

/-- Witness for C3 (amended): while playing in `st3` the reported time is
bounded by the duration, and in the paused state `st4` it equals the stored
`pauseTime`. -/
theorem c3_current_time_witness :
    getCurrentTime st3 4 ≤ st3.duration
    ∧ getCurrentTime st4 16 = st4.pauseTime := by
  constructor
  · exact ((c3_current_time st3 4).1 (by decide) (by decide)).2
  · exact (c3_current_time st4 16).2 (by decide) (by decide)

/-! ### Lemmas for setupTracks and toggleSolo -/

lemma mapSet_not_mem (m : List (String × TrackNode)) (k : String) (v : TrackNode)
    (h : m.any (fun p => p.1 = k) = false) : mapSet m k v = m ++ [(k, v)] := by
  unfold mapSet
  rw [h]
  rfl

lemma setup_foldl (objs : List SingingObject) (acc : List (String × TrackNode))
    (hnd : ((objs.filter (fun o => o.enabled)).map (fun o => o.id)).Nodup)
    (hacc : ∀ o ∈ objs, o.enabled = true → acc.any (fun p => p.1 = o.id) = false) :
    objs.foldl
      (fun ts obj => if obj.enabled then mapSet ts obj.id (mkTrackNode obj) else ts)
      acc
      = acc ++ (objs.filter (fun o => o.enabled)).map
          (fun o => (o.id, mkTrackNode o)) := by
  induction objs generalizing acc with
  | nil => simp
  | cons o rest ih =>
      simp only [List.foldl_cons]
      by_cases he : o.enabled = true
      · rw [if_pos he, mapSet_not_mem _ _ _ (hacc o (by simp) he)]
        have hnd2 : ((rest.filter (fun o => o.enabled)).map (fun o => o.id)).Nodup := by
          rw [List.filter_cons_of_pos he, List.map_cons] at hnd
          exact (List.nodup_cons.mp hnd).2
        have hid : o.id ∉ (rest.filter (fun o => o.enabled)).map (fun o => o.id) := by
          rw [List.filter_cons_of_pos he, List.map_cons] at hnd
          exact (List.nodup_cons.mp hnd).1
        rw [ih _ hnd2 ?_]
        · rw [List.filter_cons_of_pos he, List.map_cons]
          simp [List.append_assoc]
        · intro o2 ho2 he2
          rw [List.any_append]
          rw [hacc o2 (List.mem_cons_of_mem _ ho2) he2]
          have hne : ¬ o.id = o2.id := by
            intro hEq
            refine hid (List.mem_map.mpr ⟨o2, List.mem_filter.mpr ⟨ho2, he2⟩, hEq.symm⟩)
          simp [hne]
      · rw [if_neg he]
        have hnd2 : ((rest.filter (fun o => o.enabled)).map (fun o => o.id)).Nodup := by
          rw [List.filter_cons_of_neg (by simpa using he)] at hnd
          exact hnd
        rw [ih _ hnd2 (fun o2 ho2 he2 => hacc o2 (List.mem_cons_of_mem _ ho2) he2)]
        rw [List.filter_cons_of_neg (by simpa using he)]

lemma setupTracks_ok (s : AudioEngineState) (b : AudioBuffer)
    (objs : List SingingObject) (ctx : AudioCtx) (hc : s.context = some ctx)
    (hm : s.masterGain = true)
    (hnd : ((objs.filter (fun o => o.enabled)).map (fun o => o.id)).Nodup) :
    setupTracks s b objs
      = ({ s with
            tracks := (objs.filter (fun o => o.enabled)).map
              (fun o => (o.id, mkTrackNode o))
            isPlaying := false
            duration := b.duration }, .ok ()) := by
  unfold setupTracks clearTracks stop
  rw [hc, hm]
  dsimp only
  rw [setup_foldl objs [] hnd (fun o _ _ => rfl)]
  rw [List.nil_append]

lemma anySolo_map_gain (m : List (String × TrackNode)) (hs : Bool) :
    anySolo (m.map (fun p => (p.1, { p.2 with gainValue := soloGain hs p.2 })))
      = anySolo m := by
  unfold anySolo
  rw [List.any_map]
  rfl

lemma soloGain_map (m : List (String × TrackNode)) (hs : Bool)
    (p : String × TrackNode)
    (hp : p ∈ m.map (fun q => (q.1, { q.2 with gainValue := soloGain hs q.2 }))) :
    p.2.gainValue = soloGain hs p.2 := by
  obtain ⟨q, _, rfl⟩ := List.mem_map.mp hp
  rfl

/-- C4: `seek(buffer, t)` stores `t` clamped to `[0, duration]` as the new
offset, so `seek(buffer, -5)` behaves exactly as `seek(buffer, 0)` and
`seek(buffer, duration + 100)` exactly as `seek(buffer, duration)`.  If the
engine was not playing, seek only stores the clamped offset (no source is
started, and on a reachable state nothing else changes); if it was playing
(with an open context whose resume cannot fail), seek succeeds, the engine
is playing afterwards, and every track's fresh source starts at the clamped
offset. -/
theorem c4_seek_clamps_and_restarts (s : AudioEngineState) (b : AudioBuffer)
    (t now : ℚ) (r : Bool) (hd : 0 ≤ s.duration) :
    (seek s b t now r).1.pauseTime = max 0 (min t s.duration)
    ∧ seek s b (-5) now r = seek s b 0 now r
    ∧ seek s b (s.duration + 100) now r = seek s b s.duration now r
    ∧ (s.isPlaying = false →
        seek s b t now r
          = ({ stop s with pauseTime := max 0 (min t s.duration) }, .ok ())
        ∧ ∀ p ∈ (seek s b t now r).1.tracks, p.2.source = none)
    ∧ (Reachable s → s.isPlaying = false →
        (seek s b t now r).1 = { s with pauseTime := max 0 (min t s.duration) })
    ∧ (∀ c, s.isPlaying = true → s.context = some c → s.masterGain = true →
        (c.suspended = false ∨ r = true) →
        (seek s b t now r).2 = .ok ()
        ∧ (seek s b t now r).1.isPlaying = true
        ∧ ∀ p ∈ (seek s b t now r).1.tracks,
            p.2.source = some { buffer := b, startOffset := max 0 (min t s.duration) }) := by
  have e1 : max 0 (min (-5 : ℚ) s.duration) = max 0 (min (0 : ℚ) s.duration) := by
    rw [min_eq_left (by linarith), min_eq_left hd]
    rw [max_eq_left (by norm_num), max_self]
  have e2 : max 0 (min (s.duration + 100) s.duration) = max 0 (min s.duration s.duration) := by
    rw [min_eq_right (by linarith), min_self]
  refine ⟨?_, ?_, ?_, ?_, ?_, ?_⟩
  · rcases hw : s.isPlaying
    · rw [seek_not_playing s b t now r hw]
    · rw [seek_playing s b t now r hw]
      rcases h2 : (play { stop s with pauseTime := max 0 (min t s.duration) } b now r).2 with e | u
      · rw [play_error_state h2]
      · rw [play_ok_state h2]
        rfl
  · rcases hw : s.isPlaying
    · rw [seek_not_playing s b (-5) now r hw, seek_not_playing s b 0 now r hw, e1]
    · rw [seek_playing s b (-5) now r hw, seek_playing s b 0 now r hw, e1]
  · rcases hw : s.isPlaying
    · rw [seek_not_playing s b (s.duration + 100) now r hw,
        seek_not_playing s b s.duration now r hw, e2]
    · rw [seek_playing s b (s.duration + 100) now r hw,
        seek_playing s b s.duration now r hw, e2]
  · intro hw
    refine ⟨seek_not_playing s b t now r hw, ?_⟩
    rw [seek_not_playing s b t now r hw]
    intro p hp
    exact allSourcesNone_stop s p hp
  · intro hR hw
    rw [seek_not_playing s b t now r hw]
    show ({ stop s with pauseTime := max 0 (min t s.duration) } : AudioEngineState) = _
    rw [stop_eq_of_idle s hw ((reachable_sourcesInv hR).2 hw)]
  · intro c hw hc hm hr
    rw [seek_playing s b t now r hw]
    have hok := play_ok_of (s := { stop s with pauseTime := max 0 (min t s.duration) })
      b now r hc hm hr
    rw [hok]
    refine ⟨rfl, rfl, ?_⟩
    intro p hp
    obtain ⟨q, _, rfl⟩ := List.mem_map.mp hp
    rfl

/-- Witness for C4: seeking to 25 on the playing state `st3` (duration 10)
clamps the offset to 10 and keeps playing; seeking to −5 on the idle state
`st2` only sets the offset to 0. -/
theorem c4_seek_witness :
    (seek st3 demoBuffer 25 20 true).1.pauseTime = 10
    ∧ (seek st3 demoBuffer 25 20 true).1.isPlaying = true
    ∧ (seek st2 demoBuffer (-5) 20 true).1 = { st2 with pauseTime := 0 } := by
  refine ⟨?_, ?_, ?_⟩
  · rw [(c4_seek_clamps_and_restarts st3 demoBuffer 25 20 true (by decide)).1]
    decide
  · exact ((c4_seek_clamps_and_restarts st3 demoBuffer 25 20 true (by decide)).2.2.2.2.2
      { suspended := false } (by decide) (by decide) (by decide) (Or.inl rfl)).2.1
  · rw [(c4_seek_clamps_and_restarts st2 demoBuffer (-5) 20 true (by decide)).2.2.2.2.1
      st2_reachable (by decide)]
    decide

/-- C7 counterexample: two enabled voices sharing the id "a" yield a single
`TrackNode` — the later voice's `Map.set` overwrites the earlier one — not
one `TrackNode` per enabled voice. -/
theorem c7_counterexample :
    (dupVoices.filter (fun o => o.enabled)).length = 2
    ∧ ((setupTracks st1 demoBuffer dupVoices).1.tracks).length = 1
    ∧ (mapGet (setupTracks st1 demoBuffer dupVoices).1.tracks "a").map
        TrackNode.gainValue = some (3/4) := by
  refine ⟨by decide, by decide, by decide⟩

/-- C7 (amended): after `initialize()`, `setupTracks(buffer, voices)` tears
down the existing `TrackNode`s and builds exactly one `TrackNode` per
distinct enabled-voice id, in order — a later enabled voice with a repeated
id overwrites the earlier node — and none for disabled voices; each node
starts with gain equal to the voice's volume, pan 0, a band-pass filter with
Q = 1 at 200 Hz for bass, 400 Hz for tenor, 800 Hz for alto, 1600 Hz for
soprano and 800 Hz for any other category.  Called without a context it
fails with `NotInitialized`. -/
theorem c7_setup_tracks (s : AudioEngineState) (b : AudioBuffer)
    (objs : List SingingObject) (vr : String) :
    (∀ ctx, s.context = some ctx → s.masterGain = true →
      ((objs.filter (fun o => o.enabled)).map (fun o => o.id)).Nodup →
      setupTracks s b objs
        = ({ s with
              tracks := (objs.filter (fun o => o.enabled)).map
                (fun o => (o.id, mkTrackNode o))
              isPlaying := false
              duration := b.duration }, .ok ()))
    ∧ (s.context = none → setupTracks s b objs = (s, .error .notInitialized))
    ∧ vocalRangeFreq "bass" = 200
    ∧ vocalRangeFreq "tenor" = 400
    ∧ vocalRangeFreq "alto" = 800
    ∧ vocalRangeFreq "soprano" = 1600
    ∧ (vr ≠ "bass" → vr ≠ "tenor" → vr ≠ "alto" → vr ≠ "soprano" →
        vocalRangeFreq vr = 800) := by
  refine ⟨?_, ?_, rfl, rfl, rfl, rfl, ?_⟩
  · intro ctx hc hm hnd
    exact setupTracks_ok s b objs ctx hc hm hnd
  · intro h
    unfold setupTracks
    rw [h]
  · intro h1 h2 h3 h4
    unfold vocalRangeFreq
    rw [if_neg h1, if_neg h2, if_neg h3, if_neg h4]

/-- Witness for C7: on the initialized engine `st1`, `setupTracks` with the
single voice builds exactly its node; on a fresh engine it fails with
`NotInitialized`; an unknown vocal range gets the 800 Hz default. -/
theorem c7_setup_tracks_witness :
    setupTracks st1 demoBuffer [demoVoice]
      = ({ st1 with
            tracks := [("a", mkTrackNode demoVoice)]
            isPlaying := false
            duration := 10 }, .ok ())
    ∧ setupTracks initState demoBuffer [demoVoice]
        = (initState, .error .notInitialized)
    ∧ vocalRangeFreq "baritone" = 800 := by
  refine ⟨?_, ?_, ?_⟩
  · rw [(c7_setup_tracks st1 demoBuffer [demoVoice] "x").1
      { suspended := false } (by decide) (by decide) (by decide)]
    decide
  · exact (c7_setup_tracks initState demoBuffer [demoVoice] "x").2.1 (by decide)
  · exact (c7_setup_tracks initState demoBuffer [demoVoice] "baritone").2.2.2.2.2.2
      (by decide) (by decide) (by decide) (by decide)

/-- C8 counterexample: `toggleSolo` with an id that is not in the track map
returns the state unchanged, so on the reachable state `st2` — one unmuted,
un-soloed track at its explicit volume 1/2 — the claimed "no track soloed ⇒
unmuted tracks at gain 1" fails after the call. -/
theorem c8_counterexample :
    Reachable st2
    ∧ toggleSolo st2 "b" = st2
    ∧ anySolo (toggleSolo st2 "b").tracks = false
    ∧ (mapGet (toggleSolo st2 "b").tracks "a").map TrackNode.muted = some false
    ∧ (mapGet (toggleSolo st2 "b").tracks "a").map TrackNode.gainValue = some (1/2)
    ∧ ¬ (mapGet (toggleSolo st2 "b").tracks "a").map TrackNode.gainValue = some 1 :=
  ⟨st2_reachable, by decide, by decide, by decide, by decide, by decide⟩

/-- C8 (amended): after a `toggleSolo` call whose id is present in the track
map, if any track is soloed then every track's gain is 1 when soloed and 0
otherwise (overriding mute), and if no track is soloed then every track's
gain is 0 when muted and otherwise the fixed default 1 — never the track's
last explicitly set volume.  (`toggleSolo` on an absent id changes
nothing.) -/
theorem c8_toggle_solo (s : AudioEngineState) (objectId : String)
    (t0 : TrackNode) (h : mapGet s.tracks objectId = some t0) :
    (anySolo (toggleSolo s objectId).tracks = true →
      ∀ p ∈ (toggleSolo s objectId).tracks,
        p.2.gainValue = (if p.2.solo = true then (1 : ℚ) else 0))
    ∧ (anySolo (toggleSolo s objectId).tracks = false →
      ∀ p ∈ (toggleSolo s objectId).tracks,
        p.2.gainValue = (if p.2.muted = true then (0 : ℚ) else 1)) := by
  unfold toggleSolo
  rw [h]
  dsimp only
  constructor
  · intro hAny p hp
    rw [anySolo_map_gain] at hAny
    rw [soloGain_map _ _ p hp]
    unfold soloGain
    rw [hAny]
    rfl
  · intro hAny p hp
    rw [anySolo_map_gain] at hAny
    rw [soloGain_map _ _ p hp]
    unfold soloGain
    rw [hAny]
    rfl

/-- Witness for C8: soloing the only track of `st2` forces every track's
gain to the solo rule (the soloed track to full gain 1). -/
theorem c8_toggle_solo_witness :
    (toggleSolo st2 "a").tracks.all soloGainOk = true := by
  have h := (c8_toggle_solo st2 "a" (mkTrackNode demoVoice) (by decide)).1 (by decide)
  rw [List.all_eq_true]
  intro p hp
  unfold soloGainOk
  rw [h p hp]
  simp

end MusicAi
